import Mathlib

/-!
Verification of the todo state-synchronization engine (`useTodos` hook).

The canonical collection is modelled as a `List Todo`; each mutation of the
hook becomes a pure function on that list.  `Date.now()` is modelled by an
explicit `now : Nat` argument supplied at each `addTodo` call, and
`new Date()` (the `createdAt` field) is captured from the same instant.
JavaScript `String.prototype.trim` is modelled by `jsTrim` below.
-/

/-- JavaScript `String.prototype.trim`: drop whitespace from both ends of the
string.  (Written over the character list so that the kernel can evaluate it
on literals.) -/
def jsTrim (s : String) : String :=
  String.mk (((s.data.dropWhile Char.isWhitespace).reverse.dropWhile
    Char.isWhitespace).reverse)

/-- A task record, mirroring the `Todo` interface of the source
(`id`, `text`, `completed`, `createdAt`). -/
structure Todo where
  id : Nat
  text : String
  completed : Bool
  createdAt : Nat
deriving Repr, DecidableEq

/-- The filter criterion: `'all' | 'active' | 'completed'`. -/
inductive FilterType where
  | all
  | active
  | completed
deriving Repr, DecidableEq

/-- The stats record `{ total, completed, active }` returned by the hook. -/
structure Stats where
  total : Nat
  completed : Nat
  active : Nat
deriving Repr, DecidableEq

/-- `addTodo`: if the trim of `text` is not empty, build a new task with
`id = Date.now()`, trimmed text, `completed = false`, `createdAt` of the same
instant, and prepend it (`[newTodo, ...prev]`); otherwise do nothing. -/
def addTodo (now : Nat) (text : String) (todos : List Todo) : List Todo :=
  if jsTrim text ≠ "" then
    { id := now, text := jsTrim text, completed := false, createdAt := now } :: todos
  else
    todos

/-- `toggleTodo`: map over the list, flipping `completed` on the task whose
`id` matches and returning every other task unchanged. -/
def toggleTodo (id : Nat) (todos : List Todo) : List Todo :=
  todos.map fun todo =>
    if todo.id = id then { todo with completed := !todo.completed } else todo

/-- `deleteTodo`: keep exactly the tasks whose `id` differs
(`prev.filter(todo => todo.id !== id)`). -/
def deleteTodo (id : Nat) (todos : List Todo) : List Todo :=
  todos.filter fun todo => todo.id != id

/-- `editTodo`: if the trim of `newText` is not empty, map over the list replacing the
matching task's `text` with the trimmed value; otherwise do nothing. -/
def editTodo (id : Nat) (newText : String) (todos : List Todo) : List Todo :=
  if jsTrim newText ≠ "" then
    todos.map fun todo =>
      if todo.id = id then { todo with text := jsTrim newText } else todo
  else
    todos

/-- `clearCompleted`: keep exactly the tasks with `completed = false`
(`prev.filter(todo => !todo.completed)`). -/
def clearCompleted (todos : List Todo) : List Todo :=
  todos.filter fun todo => !todo.completed

/-- `filteredTodos`: the memoized filtered view — `'active'` keeps tasks with
`!todo.completed`, `'completed'` keeps tasks with `todo.completed`, and the
default branch (`'all'`) keeps everything. -/
def filteredTodos (filter : FilterType) (todos : List Todo) : List Todo :=
  todos.filter fun todo =>
    match filter with
    | FilterType.active => !todo.completed
    | FilterType.completed => todo.completed
    | FilterType.all => true

/-- `stats`: the memoized stats object, computed from the unfiltered
(overlay-inclusive) collection: `total` is its length and `completed` /
`active` are independent filter counts. -/
def stats (todos : List Todo) : Stats :=
  { total := todos.length
    completed := (todos.filter fun todo => todo.completed).length
    active := (todos.filter fun todo => !todo.completed).length }

/-- The hook state visible to presentation: the (overlay-inclusive) canonical
collection together with the active filter criterion. -/
structure EngineState where
  todos : List Todo
  filter : FilterType
deriving Repr, DecidableEq

/-- `setFilter` / `updateFilter`: stores the new criterion (inside a
transition) and touches nothing else. -/
def updateFilter (newFilter : FilterType) (s : EngineState) : EngineState :=
  { s with filter := newFilter }

/-- `getVisibleTasks`: the `todos` value returned by the hook, i.e. the
filtered view of the collection under the active criterion. -/
def getVisibleTasks (s : EngineState) : List Todo :=
  filteredTodos s.filter s.todos

/-- `getStats`: the `stats` value returned by the hook. -/
def getStats (s : EngineState) : Stats :=
  stats s.todos

/-- One engine operation, with the `Date.now()` value of an add recorded as
an explicit argument. -/
inductive Op where
  | add (now : Nat) (text : String)
  | toggle (id : Nat)
  | delete (id : Nat)
  | edit (id : Nat) (newText : String)
  | clear
deriving Repr, DecidableEq

/-- Apply one operation to the canonical collection. -/
def applyOp (todos : List Todo) : Op → List Todo
  | Op.add now text => addTodo now text todos
  | Op.toggle id => toggleTodo id todos
  | Op.delete id => deleteTodo id todos
  | Op.edit id newText => editTodo id newText todos
  | Op.clear => clearCompleted todos

/-- Run a sequence of operations starting from the empty collection: the
reachable states of the engine. -/
def runOps (ops : List Op) : List Todo :=
  List.foldl applyOp [] ops

/-- The `Date.now()` values consumed by the `add` operations of a run, in
order. -/
def addTimes : List Op → List Nat
  | [] => []
  | Op.add now _ :: ops => now :: addTimes ops
  | _ :: ops => addTimes ops

/-! ## Helper lemmas -/

/-- The lengths of the two complementary filterings of a list add up to its
length. -/
theorem length_filter_not_add_length_filter (p : Todo → Bool) (l : List Todo) :
    (l.filter fun a => !p a).length + (l.filter p).length = l.length := by
  induction l with
  | nil => rfl
  | cons a l ih =>
    by_cases h : p a <;> simp [List.filter_cons, h] <;> omega

/-- Toggling an id that no task carries leaves the collection unchanged. -/
theorem toggleTodo_not_mem (id : Nat) (todos : List Todo)
    (h : ∀ t ∈ todos, t.id ≠ id) : toggleTodo id todos = todos := by
  induction todos with
  | nil => rfl
  | cons t ts ih =>
    simp only [toggleTodo, List.map_cons] at ih ⊢
    rw [if_neg (h t (List.mem_cons_self t ts)),
      ih fun x hx => h x (List.mem_cons_of_mem t hx)]

/-- Toggling never changes the sequence of ids. -/
theorem toggleTodo_map_id (id : Nat) (todos : List Todo) :
    (toggleTodo id todos).map Todo.id = todos.map Todo.id := by
  induction todos with
  | nil => rfl
  | cons t ts ih =>
    simp only [toggleTodo, List.map_cons] at ih ⊢
    rw [ih]
    by_cases h : t.id = id <;> simp [h]

/-- Editing never changes the sequence of ids. -/
theorem editTodo_map_id (id : Nat) (newText : String) (todos : List Todo) :
    (editTodo id newText todos).map Todo.id = todos.map Todo.id := by
  unfold editTodo
  split
  · induction todos with
    | nil => rfl
    | cons t ts ih =>
      simp only [List.map_cons] at ih ⊢
      rw [ih]
      by_cases h : t.id = id <;> simp [h]
  · rfl

/-- Deleting yields a sublist of the original collection. -/
theorem deleteTodo_sublist (id : Nat) (todos : List Todo) :
    (deleteTodo id todos).Sublist todos :=
  List.filter_sublist todos

/-- Clearing completed tasks yields a sublist of the original collection. -/
theorem clearCompleted_sublist (todos : List Todo) :
    (clearCompleted todos).Sublist todos :=
  List.filter_sublist todos

/-! ## Claim theorems -/

/-- C2: for every (overlay-inclusive) collection, the stats satisfy
`active + completed = total` and `total` is the size of the collection;
in particular the independently filter-counted `active` equals
`total - completed`. -/
theorem C2_stats_invariant (todos : List Todo) :
    (stats todos).active + (stats todos).completed = (stats todos).total ∧
    (stats todos).total = todos.length := by
  refine ⟨?_, rfl⟩
  simpa [stats] using
    length_filter_not_add_length_filter (fun t => t.completed) todos

/-- C3: `addTodo` with whitespace-only text is a no-op; with non-empty trimmed
text it prepends exactly one new task carrying the trimmed text,
`completed = false` and `createdAt` captured at creation; consequently
`addTask "A"` then `addTask "B"` from empty shows `["B", "A"]` under `All`. -/
theorem C3_addTodo_spec :
    (∀ (now : Nat) (text : String) (todos : List Todo),
      jsTrim text = "" → addTodo now text todos = todos) ∧
    (∀ (now : Nat) (text : String) (todos : List Todo),
      jsTrim text ≠ "" →
      addTodo now text todos =
        { id := now, text := jsTrim text, completed := false,
          createdAt := now } :: todos) ∧
    (filteredTodos FilterType.all (addTodo 2 "B" (addTodo 1 "A" []))).map
      Todo.text = ["B", "A"] := by
  refine ⟨?_, ?_, by decide⟩
  · intro now text todos h
    simp [addTodo, h]
  · intro now text todos h
    simp [addTodo, h]

/-- C3 witness: the two conditional parts evaluated at concrete inputs. -/
theorem C3_addTodo_spec_witness :
    addTodo 7 "   " [] = [] ∧
    addTodo 7 " hi  " [] = [⟨7, "hi", false, 7⟩] :=
  ⟨C3_addTodo_spec.1 7 "   " [] (by decide),
    (C3_addTodo_spec.2.1 7 " hi  " [] (by decide)).trans (by decide)⟩

/-- C4: changing the filter criterion never changes the stats, which are
computed from the unfiltered collection; with two tasks (one completed),
after `setFilter Active` the visible sequence holds only the incomplete task
while stats still report both. -/
theorem C4_stats_filter_frame :
    (∀ (s : EngineState) (f : FilterType),
      getStats (updateFilter f s) = getStats s) ∧
    getVisibleTasks (updateFilter FilterType.active
      ⟨[⟨1, "a", true, 1⟩, ⟨2, "b", false, 2⟩], FilterType.all⟩) =
        [⟨2, "b", false, 2⟩] ∧
    getStats (updateFilter FilterType.active
      ⟨[⟨1, "a", true, 1⟩, ⟨2, "b", false, 2⟩], FilterType.all⟩) =
        { total := 2, completed := 1, active := 1 } :=
  ⟨fun _ _ => rfl, by decide, by decide⟩

/-- C5: the visible view is a pure function of collection and filter: `All`
returns the whole collection, `Active` exactly the unfinished tasks,
`Completed` exactly the finished ones, always as an order-preserving
sublist, and the empty collection yields the empty view for every
criterion. -/
theorem C5_filteredTodos_spec :
    (∀ todos : List Todo, filteredTodos FilterType.all todos = todos) ∧
    (∀ todos : List Todo, filteredTodos FilterType.active todos =
      todos.filter fun t => !t.completed) ∧
    (∀ todos : List Todo, filteredTodos FilterType.completed todos =
      todos.filter fun t => t.completed) ∧
    (∀ (f : FilterType) (todos : List Todo),
      (filteredTodos f todos).Sublist todos) ∧
    (∀ f : FilterType, filteredTodos f [] = []) := by
  refine ⟨fun todos => ?_, fun todos => rfl, fun todos => rfl,
    fun f todos => List.filter_sublist todos, fun f => rfl⟩
  simp [filteredTodos]

/-- C6: `toggleTodo` preserves length; at each position the task's `id`,
`text` and `createdAt` are untouched while `completed` is negated exactly
when the id matches; a position whose id differs is returned unchanged; and
an id carried by no task makes the whole call a no-op. -/
theorem C6_toggleTodo_spec :
    (∀ (id : Nat) (todos : List Todo),
      (toggleTodo id todos).length = todos.length) ∧
    (∀ (id : Nat) (todos : List Todo) (i : Nat)
      (h1 : i < todos.length) (h2 : i < (toggleTodo id todos).length),
      ((toggleTodo id todos)[i].id = todos[i].id ∧
        (toggleTodo id todos)[i].text = todos[i].text ∧
        (toggleTodo id todos)[i].createdAt = todos[i].createdAt ∧
        (toggleTodo id todos)[i].completed =
          (if todos[i].id = id then !todos[i].completed
            else todos[i].completed)) ∧
      (todos[i].id ≠ id → (toggleTodo id todos)[i] = todos[i])) ∧
    (∀ (id : Nat) (todos : List Todo),
      (∀ t ∈ todos, t.id ≠ id) → toggleTodo id todos = todos) := by
  refine ⟨fun id todos => by simp [toggleTodo], ?_, toggleTodo_not_mem⟩
  intro id todos i h1 h2
  have hget : (toggleTodo id todos)[i] =
      (if todos[i].id = id
        then { todos[i] with completed := !todos[i].completed }
        else todos[i]) := by
    simp [toggleTodo]
  rw [hget]
  by_cases h : todos[i].id = id <;> simp [h]

/-- C6 witness: the positional description and the unknown-id no-op applied
to a concrete two-task collection. -/
theorem C6_toggleTodo_spec_witness :
    (((toggleTodo 1 [⟨1, "a", false, 0⟩, ⟨2, "b", false, 0⟩])[0].id =
        ([⟨1, "a", false, 0⟩, ⟨2, "b", false, 0⟩] : List Todo)[0].id ∧
      (toggleTodo 1 [⟨1, "a", false, 0⟩, ⟨2, "b", false, 0⟩])[0].text =
        ([⟨1, "a", false, 0⟩, ⟨2, "b", false, 0⟩] : List Todo)[0].text ∧
      (toggleTodo 1 [⟨1, "a", false, 0⟩, ⟨2, "b", false, 0⟩])[0].createdAt =
        ([⟨1, "a", false, 0⟩, ⟨2, "b", false, 0⟩] : List Todo)[0].createdAt ∧
      (toggleTodo 1 [⟨1, "a", false, 0⟩, ⟨2, "b", false, 0⟩])[0].completed =
        (if ([⟨1, "a", false, 0⟩, ⟨2, "b", false, 0⟩] : List Todo)[0].id = 1
          then !([⟨1, "a", false, 0⟩, ⟨2, "b", false, 0⟩] :
            List Todo)[0].completed
          else ([⟨1, "a", false, 0⟩, ⟨2, "b", false, 0⟩] :
            List Todo)[0].completed)) ∧
      (([⟨1, "a", false, 0⟩, ⟨2, "b", false, 0⟩] : List Todo)[0].id ≠ 1 →
        (toggleTodo 1 [⟨1, "a", false, 0⟩, ⟨2, "b", false, 0⟩])[0] =
          ([⟨1, "a", false, 0⟩, ⟨2, "b", false, 0⟩] : List Todo)[0])) ∧
    toggleTodo 9 [⟨1, "a", false, 0⟩] = [⟨1, "a", false, 0⟩] :=
  ⟨C6_toggleTodo_spec.2.1 1 [⟨1, "a", false, 0⟩, ⟨2, "b", false, 0⟩] 0
      (by decide) (by decide),
    C6_toggleTodo_spec.2.2 9 [⟨1, "a", false, 0⟩] (by decide)⟩

/-- C7: `editTodo` with whitespace-only replacement text is a no-op on the
whole collection; otherwise it preserves length, leaves every task's `id`,
`completed` and `createdAt` untouched, stores the trimmed text exactly at
the matching id, and returns every non-matching task unchanged. -/
theorem C7_editTodo_spec :
    (∀ (id : Nat) (newText : String) (todos : List Todo),
      jsTrim newText = "" → editTodo id newText todos = todos) ∧
    (∀ (id : Nat) (newText : String) (todos : List Todo),
      (editTodo id newText todos).length = todos.length) ∧
    (∀ (id : Nat) (newText : String) (todos : List Todo) (i : Nat)
      (h1 : i < todos.length) (h2 : i < (editTodo id newText todos).length),
      (editTodo id newText todos)[i].id = todos[i].id ∧
      (editTodo id newText todos)[i].completed = todos[i].completed ∧
      (editTodo id newText todos)[i].createdAt = todos[i].createdAt ∧
      (todos[i].id = id → jsTrim newText ≠ "" →
        (editTodo id newText todos)[i].text = jsTrim newText) ∧
      (todos[i].id ≠ id → (editTodo id newText todos)[i] = todos[i])) := by
  refine ⟨?_, ?_, ?_⟩
  · intro id newText todos h
    simp [editTodo, h]
  · intro id newText todos
    unfold editTodo
    split <;> simp
  · intro id newText todos i h1 h2
    by_cases htrim : jsTrim newText = ""
    · have hnoop : editTodo id newText todos = todos := by
        simp [editTodo, htrim]
      simp [hnoop, htrim]
    · have hget : (editTodo id newText todos)[i] =
          (if todos[i].id = id
            then { todos[i] with text := jsTrim newText } else todos[i]) := by
        simp [editTodo, htrim]
      rw [hget]
      by_cases h : todos[i].id = id <;> simp [h]

/-- C7 witness: editing a present id with a non-blank and with a blank text,
evaluated on a concrete collection. -/
theorem C7_editTodo_spec_witness :
    editTodo 1 "  " [⟨1, "a", false, 0⟩] = [⟨1, "a", false, 0⟩] ∧
    (([⟨1, "a", false, 0⟩] : List Todo)[0].id = 1 → jsTrim " x " ≠ "" →
      (editTodo 1 " x " [⟨1, "a", false, 0⟩])[0].text = jsTrim " x ") :=
  ⟨C7_editTodo_spec.1 1 "  " [⟨1, "a", false, 0⟩] (by decide),
    (C7_editTodo_spec.2.2 1 " x " [⟨1, "a", false, 0⟩] 0
      (by decide) (by decide)).2.2.2.1⟩

/-- C8: `deleteTodo` keeps exactly the tasks whose id differs, as an
order-preserving sublist, and is a no-op on an unknown id; every invalid
input — blank text on add or edit, unknown id on toggle or delete — leaves
the collection exactly as before (all operations are total functions, so
none can throw or apply in part). -/
theorem C8_deleteTodo_total_spec :
    (∀ (id : Nat) (todos : List Todo),
      (deleteTodo id todos).Sublist todos) ∧
    (∀ (id : Nat) (todos : List Todo) (t : Todo),
      t ∈ deleteTodo id todos ↔ t ∈ todos ∧ t.id ≠ id) ∧
    (∀ (id : Nat) (todos : List Todo),
      (∀ t ∈ todos, t.id ≠ id) → deleteTodo id todos = todos) ∧
    (∀ (now : Nat) (text : String) (todos : List Todo),
      jsTrim text = "" → addTodo now text todos = todos) ∧
    (∀ (id : Nat) (newText : String) (todos : List Todo),
      jsTrim newText = "" → editTodo id newText todos = todos) ∧
    (∀ (id : Nat) (todos : List Todo),
      (∀ t ∈ todos, t.id ≠ id) → toggleTodo id todos = todos) := by
  refine ⟨fun id todos => List.filter_sublist todos, ?_, ?_, ?_, ?_,
    toggleTodo_not_mem⟩
  · intro id todos t
    simp [deleteTodo, List.mem_filter]
  · intro id todos h
    exact List.filter_eq_self.mpr fun t ht => by simpa using h t ht
  · intro now text todos h
    simp [addTodo, h]
  · intro id newText todos h
    simp [editTodo, h]

/-- C8 witness: deletion of a present and of an absent id, and the blank-text
no-ops, evaluated on concrete inputs. -/
theorem C8_deleteTodo_total_spec_witness :
    deleteTodo 9 [⟨1, "a", false, 0⟩] = [⟨1, "a", false, 0⟩] ∧
    addTodo 3 " " [⟨1, "a", false, 0⟩] = [⟨1, "a", false, 0⟩] ∧
    editTodo 1 "\t" [⟨1, "a", false, 0⟩] = [⟨1, "a", false, 0⟩] ∧
    toggleTodo 9 [⟨2, "b", true, 0⟩] = [⟨2, "b", true, 0⟩] :=
  ⟨C8_deleteTodo_total_spec.2.2.1 9 [⟨1, "a", false, 0⟩] (by decide),
    C8_deleteTodo_total_spec.2.2.2.1 3 " " [⟨1, "a", false, 0⟩] (by decide),
    C8_deleteTodo_total_spec.2.2.2.2.1 1 "\t" [⟨1, "a", false, 0⟩]
      (by decide),
    C8_deleteTodo_total_spec.2.2.2.2.2 9 [⟨2, "b", true, 0⟩] (by decide)⟩

/-- C9: `clearCompleted` keeps exactly the unfinished tasks, preserving their
order; on a concrete three-task collection (two completed, one active) the
result is the single active task with stats total 1, active 1,
completed 0. -/
theorem C9_clearCompleted_spec :
    (∀ (todos : List Todo) (t : Todo),
      t ∈ clearCompleted todos ↔ t ∈ todos ∧ t.completed = false) ∧
    (∀ todos : List Todo, (clearCompleted todos).Sublist todos) ∧
    clearCompleted [⟨1, "a", true, 1⟩, ⟨2, "b", false, 2⟩, ⟨3, "c", true, 3⟩]
      = [⟨2, "b", false, 2⟩] ∧
    stats (clearCompleted
        [⟨1, "a", true, 1⟩, ⟨2, "b", false, 2⟩, ⟨3, "c", true, 3⟩]) =
      { total := 1, completed := 0, active := 1 } := by
  refine ⟨?_, fun todos => List.filter_sublist todos, by decide, by decide⟩
  intro todos t
  simp [clearCompleted, List.mem_filter]

/-- C10: toggling the same id twice restores the collection exactly, and
therefore also the stats and every filtered view. -/
theorem C10_toggle_involution :
    ∀ (id : Nat) (todos : List Todo),
      toggleTodo id (toggleTodo id todos) = todos ∧
      stats (toggleTodo id (toggleTodo id todos)) = stats todos ∧
      ∀ f : FilterType, filteredTodos f (toggleTodo id (toggleTodo id todos))
        = filteredTodos f todos := by
  intro id todos
  have h : toggleTodo id (toggleTodo id todos) = todos := by
    induction todos with
    | nil => rfl
    | cons t ts ih =>
      simp only [toggleTodo, List.map_cons] at ih ⊢
      rw [ih]
      by_cases ht : t.id = id
      · subst ht
        simp
      · simp [ht]
  exact ⟨h, by rw [h], fun f => by rw [h]⟩

/-- Starting from any collection whose ids are distinct and avoid every
upcoming `Date.now()` value, a run of operations whose `add` timestamps are
pairwise distinct keeps all ids distinct. -/
theorem foldl_applyOp_ids_nodup (ops : List Op) :
    ∀ st : List Todo, (st.map Todo.id).Nodup → (addTimes ops).Nodup →
      (∀ t ∈ addTimes ops, t ∉ st.map Todo.id) →
      ((List.foldl applyOp st ops).map Todo.id).Nodup := by
  induction ops with
  | nil => intro st h1 _ _; exact h1
  | cons op ops ih =>
    intro st h1 h2 h3
    rw [List.foldl_cons]
    cases op with
    | add now text =>
      have h2' := (List.nodup_cons.mp h2).2
      have hfresh : now ∉ addTimes ops := (List.nodup_cons.mp h2).1
      by_cases ht : jsTrim text = ""
      · have : applyOp st (Op.add now text) = st := by
          simp [applyOp, addTodo, ht]
        rw [this]
        exact ih st h1 h2' fun t htt =>
          h3 t (List.mem_cons_of_mem _ htt)
      · have heq : applyOp st (Op.add now text) =
            { id := now, text := jsTrim text, completed := false,
              createdAt := now } :: st := by
          simp [applyOp, addTodo, ht]
        rw [heq]
        apply ih
        · exact List.nodup_cons.mpr
            ⟨h3 now (List.mem_cons_self _ _), h1⟩
        · exact h2'
        · intro t htt
          simp only [List.map_cons, List.mem_cons]
          push_neg
          refine ⟨fun hteq => hfresh (hteq ▸ htt), ?_⟩
          exact h3 t (List.mem_cons_of_mem _ htt)
    | toggle id =>
      apply ih
      · simpa [applyOp, toggleTodo_map_id] using h1
      · simpa [addTimes] using h2
      · intro t htt
        rw [applyOp, toggleTodo_map_id]
        exact h3 t (by simpa [addTimes] using htt)
    | edit id newText =>
      apply ih
      · simpa [applyOp, editTodo_map_id] using h1
      · simpa [addTimes] using h2
      · intro t htt
        rw [applyOp, editTodo_map_id]
        exact h3 t (by simpa [addTimes] using htt)
    | delete id =>
      have hsub : ((applyOp st (Op.delete id)).map Todo.id).Sublist
          (st.map Todo.id) := (deleteTodo_sublist id st).map Todo.id
      apply ih
      · exact h1.sublist hsub
      · simpa [addTimes] using h2
      · intro t htt hmem
        exact h3 t (by simpa [addTimes] using htt) (hsub.subset hmem)
    | clear =>
      have hsub : ((applyOp st Op.clear).map Todo.id).Sublist
          (st.map Todo.id) := (clearCompleted_sublist st).map Todo.id
      apply ih
      · exact h1.sublist hsub
      · simpa [addTimes] using h2
      · intro t htt hmem
        exact h3 t (by simpa [addTimes] using htt) (hsub.subset hmem)

/-- C1 counterexample: two `addTask` calls served the same `Date.now()`
millisecond produce two tasks with the same id, so the uniqueness invariant
fails as stated. -/
theorem C1_duplicate_id_counterexample :
    (runOps [Op.add 5 "A", Op.add 5 "B"]).map Todo.id = [5, 5] ∧
    ¬ ((runOps [Op.add 5 "A", Op.add 5 "B"]).map Todo.id).Nodup := by
  exact ⟨rfl, by decide⟩

/-- C1 (amended): in every run whose `addTask` calls observe pairwise
distinct `Date.now()` values, no two tasks in the reachable collection share
an id. -/
theorem C1_unique_ids (ops : List Op) (h : (addTimes ops).Nodup) :
    ((runOps ops).map Todo.id).Nodup :=
  foldl_applyOp_ids_nodup ops [] (by simp) h (by simp)

/-- C1 witness: a concrete run with distinct timestamps has distinct ids. -/
theorem C1_unique_ids_witness :
    (addTimes [Op.add 1 "A", Op.add 2 "B", Op.toggle 1]).Nodup ∧
    ((runOps [Op.add 1 "A", Op.add 2 "B", Op.toggle 1]).map Todo.id).Nodup :=
  ⟨by decide, C1_unique_ids [Op.add 1 "A", Op.add 2 "B", Op.toggle 1]
    (by decide)⟩
